import Mathlib

/-!
Shallow embedding of the process-management core of the rCore-style teaching
kernel (syscall dispatch, stride scheduling, mmap/munmap, process lifecycle),
translated from `os/src/syscall/process.rs`, `os/src/syscall/mod.rs`,
`os/src/task/processor.rs` and `os/src/task/task.rs`, together with theorems
settling the specification claims.

Machine integers are modelled as `Nat`/`Int`; `u8` arithmetic carries an
explicit `% 256` where the source can wrap.
-/

namespace RCore

/-- `PAGE_SIZE` from `config`. -/
def PAGE_SIZE : Nat := 4096

/-- `VirtAddr::ceil`: round a virtual address up to a page number
(`(addr + PAGE_SIZE - 1) / PAGE_SIZE`). -/
def vaCeil (addr : Nat) : Nat := (addr + PAGE_SIZE - 1) / PAGE_SIZE

/-- `VirtAddr -> VirtPageNum` floor conversion (`addr / PAGE_SIZE`). -/
def vaFloor (addr : Nat) : Nat := addr / PAGE_SIZE

/-- The list of virtual page numbers walked by the `curr_vpn.step()` loops of
`sys_mmap`/`sys_munmap`: all vpns in `[s, e)`. -/
def pageRange (s e : Nat) : List Nat := (List.range (e - s)).map (s + ·)

/-- `MapPermission` bit set {R, W, X, U}. -/
structure MapPermission where
  r : Bool
  w : Bool
  x : Bool
  u : Bool
  deriving DecidableEq, Repr

/-- One `MapArea`: a contiguous virtual-page range `[startVpn, endVpn)` with a
permission set, backed by owned frames (frames are opaque here). -/
structure MapArea where
  startVpn : Nat
  endVpn : Nat
  perm : MapPermission
  deriving DecidableEq, Repr

/-- Modelled from the spec: the `MemorySet` of a process, missing from the
provided sources (the page-table walk and frame allocator are consumed as an
opaque capability) — "an ordered collection of mapped regions (area =
contiguous virtual page range + permission bits {R,W,X,U} + owning physical
frames)". -/
structure MemorySet where
  areas : List MapArea
  deriving DecidableEq, Repr

/-- Modelled from the spec: `is_mapped(space, vpn)` — "queries the page-table
structure for that address space; no side effects": a vpn is mapped iff some
area's page range contains it. This is the `is_map_vpn` consumed by
`is_map_vpn_current`. -/
def is_map_vpn (ms : MemorySet) (vpn : Nat) : Bool :=
  ms.areas.any (fun a => a.startVpn ≤ vpn && vpn < a.endVpn)

/-- Modelled from the spec: `MemorySet::insert_framed_area` — "allocates and
inserts framed backing pages for the entire range"; the inserted area covers
pages `[floor start_va, ceil end_va)`. -/
def insert_framed_area (ms : MemorySet) (startVa endVa : Nat)
    (perm : MapPermission) : MemorySet :=
  { areas := ms.areas ++ [⟨vaFloor startVa, vaCeil endVa, perm⟩] }

/-- `add_maparea` from `task/processor.rs`: decode the low three `port` bits
into `MapPermission` (bit0→R, bit1→W, bit2→X, U always set) and insert a
framed area for the current task. -/
def add_maparea (ms : MemorySet) (startVa endVa : Nat) (perm : Nat) :
    MemorySet :=
  let permission : MapPermission :=
    { r := perm &&& 1 ≠ 0
      w := perm &&& 2 ≠ 0
      x := perm &&& 4 ≠ 0
      u := true }
  insert_framed_area ms startVa endVa permission

/-- Modelled from the spec: `MemorySet::remove_area(start_va, end_va)` —
"removal only succeeds when the requested range exactly matches a previously
inserted area's boundaries": remove the first area whose boundaries equal
`[floor start_va, ceil end_va)` and return 0, otherwise return -1 leaving the
set unchanged. -/
def remove_area (ms : MemorySet) (startVa endVa : Nat) : Int × MemorySet :=
  match ms.areas.findIdx?
      (fun a => a.startVpn == vaFloor startVa && a.endVpn == vaCeil endVa) with
  | some i => (0, { areas := ms.areas.eraseIdx i })
  | none => (-1, ms)

/-- `remove_mem` from `task/processor.rs`: delegate to
`memory_set.remove_area` on the current task. -/
def remove_mem (ms : MemorySet) (startVa endVa : Nat) : Int × MemorySet :=
  remove_area ms startVa endVa

/-- `sys_mmap` from `syscall/process.rs`, acting on the current task's
memory set; returns the syscall result and the resulting memory set. -/
def sys_mmap (ms : MemorySet) (start len port : Nat) : Int × MemorySet :=
  if start % PAGE_SIZE ≠ 0 ∨ port >>> 3 ≠ 0 ∨ port &&& 0x7 = 0 then
    (-1, ms)
  else if (pageRange (vaFloor start) (vaCeil (start + len))).any
      (fun vpn => is_map_vpn ms vpn) then
    (-1, ms)
  else
    (0, add_maparea ms start (start + len) port)

/-- `sys_munmap` from `syscall/process.rs`, acting on the current task's
memory set. -/
def sys_munmap (ms : MemorySet) (start len : Nat) : Int × MemorySet :=
  if start % PAGE_SIZE ≠ 0 then
    (-1, ms)
  else if (pageRange (vaFloor start) (vaCeil (start + len))).any
      (fun vpn => ¬ is_map_vpn ms vpn) then
    (-1, ms)
  else
    remove_mem ms start (start + len)

/-- `TaskStatus`; the chapter-5 variant with `Zombie` (the provided `task.rs`
holds an earlier chapter's variant without it; `Zombie` is required by
`sys_waitpid` and modelled from the spec's status enum). -/
inductive TaskStatus where
  | UnInit
  | Ready
  | Running
  | Zombie
  | Exited
  deriving DecidableEq, Repr

/-- A child entry of the `children` list, as observed by `sys_waitpid`:
pid, status (`is_zombie`) and `exit_code`. -/
structure Child where
  pid : Nat
  status : TaskStatus
  exit_code : Int
  deriving DecidableEq, Repr

/-- `TaskControlBlockInner::is_zombie`. -/
def is_zombie (p : Child) : Bool := p.status == TaskStatus.Zombie

/-- `pid as usize` for `pid : isize` (wrapping cast on a 64-bit target). -/
def isizeToUsize (i : Int) : Nat := (i % (2 ^ 64 : Int)).toNat

/-- The child-matching test of `sys_waitpid`:
`pid == -1 || pid as usize == p.getpid()`. -/
def childMatches (pid : Int) (p : Child) : Bool :=
  pid == -1 || isizeToUsize pid == p.pid

/-- `inner.children.iter().enumerate().find(...)` of `sys_waitpid`: the first
child (with its index) that is a Zombie and matches `pid`. -/
def findZombieChild (pid : Int) : List Child → Option (Nat × Child)
  | [] => none
  | p :: rest =>
    if is_zombie p && childMatches pid p then some (0, p)
    else (findZombieChild pid rest).map (fun ic => (ic.1 + 1, ic.2))

/-- Result of `sys_waitpid`: the syscall return value, the surviving
`children` list, and the exit code written through `exit_code_ptr` (if any). -/
structure WaitResult where
  ret : Int
  children : List Child
  written : Option Int
  deriving DecidableEq, Repr

/-- `sys_waitpid` from `syscall/process.rs`, acting on the current task's
`children` list. -/
def sys_waitpid (children : List Child) (pid : Int) : WaitResult :=
  if ¬ children.any (fun p => childMatches pid p) then
    ⟨-1, children, none⟩
  else
    match findZombieChild pid children with
    | some (idx, child) =>
        ⟨(child.pid : Int), children.eraseIdx idx, some child.exit_code⟩
    | none => ⟨-2, children, none⟩

/-- `BIG_STRIDER` from `task/processor.rs` (`u8`, value 255). -/
def BIG_STRIDER : Nat := 255

/-- The scheduling fields of a chapter-5 `TaskControlBlockInner` as read and
written by `run_tasks` / `sys_set_priority` (`stride` and `prio_level` are
`u8`, `start_time` is `isize` with `-1` as the not-yet-scheduled sentinel). -/
structure TaskInner where
  task_status : TaskStatus
  stride : Nat
  prio_level : Nat
  start_time : Int
  deriving DecidableEq, Repr

/-- The per-chosen-task body of `run_tasks` from `task/processor.rs`, i.e.
everything done to the fetched task before `__switch`: set `Running`,
`stride += BIG_STRIDER / prio_level` (`u8` arithmetic, hence `% 256`), and
assign `start_time = get_time_us()` when it is still negative. -/
def run_tasks_step (t : TaskInner) (now : Nat) : TaskInner :=
  { t with
    task_status := TaskStatus.Running
    stride := (t.stride + BIG_STRIDER / t.prio_level) % 256
    start_time := if t.start_time < 0 then (now : Int) else t.start_time }

/-- `sys_set_priority` from `syscall/process.rs`: reject levels outside
`[2, 16]`, otherwise store `prio as u8` and return `prio`. -/
def sys_set_priority (t : TaskInner) (prio : Int) : Int × TaskInner :=
  if prio < 2 ∨ prio > 16 then (-1, t)
  else (prio, { t with prio_level := isizeToUsize prio % 256 })

/-- `add_current_syscall_cnt` from `task/processor.rs`, verbatim: find the
first bucket of `tong_syscalls_cnt` whose CURRENT COUNT equals
`curr_syscall_id` and increment it; otherwise do nothing. -/
def add_current_syscall_cnt (cnt : List Nat) (currSyscallId : Nat) :
    List Nat :=
  match cnt with
  | [] => []
  | c :: rest =>
    if c = currSyscallId then (c + 1) :: rest
    else c :: add_current_syscall_cnt rest currSyscallId

/-- `get_current_running_time` from `task/processor.rs`:
`(now - start_time as usize + 1000 - 1) / 1000`, with the `usize`
subtraction and addition wrapping modulo `2^64`. -/
def get_current_running_time (startTime : Int) (now : Nat) : Nat :=
  ((now + 2 ^ 64 - isizeToUsize startTime % 2 ^ 64) % 2 ^ 64 + 1000 - 1)
    % 2 ^ 64 / 1000

/-- The user-visible `TaskInfo` record written by `sys_task_info`. -/
structure TaskInfo where
  status : TaskStatus
  syscall_times : List Nat
  time : Nat
  deriving DecidableEq, Repr

/-- The remapping loop of `sys_task_info`: for each bucket id, write the
bucket's count into the `syscall_times` slot given by the map
(`ti.syscall_times[TONG_MAP_SYSCALL[id]] = cnt[id] as u32`). -/
def writeBuckets : List (Nat × Nat) → List Nat → List Nat
  | [], times => times
  | (slot, c) :: rest, times => writeBuckets rest (times.set slot c)

/-- `sys_task_info` from `syscall/process.rs`, acting on the user memory the
`TaskInfo` pointer targets (`prev` is the prior content of
`syscall_times`). `tongMap` stands for `TONG_MAP_SYSCALL`, the fixed bucket
id → syscall number table, whose chapter-5 definition is absent from the
provided sources; it is passed as a parameter. -/
def sys_task_info (tongMap cnt prev : List Nat) (startTime : Int)
    (now : Nat) : TaskInfo :=
  { time := get_current_running_time startTime now
    status := TaskStatus.Running
    syscall_times := writeBuckets (tongMap.zip (cnt.map (· % 2 ^ 32))) prev }

/-- Modelled from the spec: the kernel state visible to the process-creation
syscalls — the caller's `children` pids, the scheduler ready queue, the pid
allocator, the set of loadable binaries (`get_app_data_by_name` succeeds
exactly on `apps` members), and which binary image backs each pid's address
space. -/
structure Kernel where
  children : List Nat
  ready_queue : List Nat
  next_pid : Nat
  apps : List String
  image : List (Nat × String)
  deriving DecidableEq, Repr

/-- Modelled from the spec: `TaskControlBlock::fork`, absent from the
provided sources — "deep-copies the parent's address space, duplicates task
state" and links the new TCB as a child of the caller; it does NOT enqueue
the new task (as witnessed by `sys_fork`, which calls `add_task` itself
afterwards). Returns the new pid. -/
def tcb_fork (st : Kernel) : Nat × Kernel :=
  (st.next_pid,
   { st with
     children := st.children ++ [st.next_pid]
     next_pid := st.next_pid + 1 })

/-- Modelled from the spec: `TaskControlBlock::exec`, absent from the
provided sources — the task's memory and register state are fully replaced
by the named binary's image; pid, parent and children are kept. -/
def tcb_exec (st : Kernel) (pid : Nat) (path : String) : Kernel :=
  { st with image := (pid, path) :: st.image.filter (fun e => e.1 ≠ pid) }

/-- Modelled from the spec: `add_task` — enqueue a TCB into the scheduler
ready queue. -/
def add_task (st : Kernel) (pid : Nat) : Kernel :=
  { st with ready_queue := st.ready_queue ++ [pid] }

/-- `sys_fork` from `syscall/process.rs`: fork the current task, zero the
child's return register (register-level, not modelled), `add_task` the new
TCB, return the child's pid. -/
def sys_fork (st : Kernel) : Int × Kernel :=
  let p := tcb_fork st
  ((p.1 : Int), add_task p.2 p.1)

/-- `sys_spawn` from `syscall/process.rs`, verbatim: fork first, then look
the path up; on success `exec` the new task and return its pid, on failure
return -1. No `add_task` call appears anywhere in it. -/
def sys_spawn (st : Kernel) (path : String) : Int × Kernel :=
  let p := tcb_fork st
  if path ∈ st.apps then ((p.1 : Int), tcb_exec p.2 p.1 path)
  else (-1, p.2)

/-- The syscall numbers of `syscall/mod.rs`. -/
def SYSCALL_WRITE : Nat := 64

/-- exit syscall number. -/
def SYSCALL_EXIT : Nat := 93

/-- yield syscall number. -/
def SYSCALL_YIELD : Nat := 124

/-- gettime syscall number. -/
def SYSCALL_GET_TIME : Nat := 169

/-- taskinfo syscall number. -/
def SYSCALL_TASK_INFO : Nat := 410

/-- `SYSCALL_MAP` from `syscall/mod.rs`: the dispatch table's recognized
syscall ids. -/
def SYSCALL_MAP : List Nat :=
  [SYSCALL_WRITE, SYSCALL_EXIT, SYSCALL_YIELD, SYSCALL_GET_TIME,
   SYSCALL_TASK_INFO]

/-- Outcome of one dispatcher invocation: a returned signed word, divergence
(`sys_exit` never returns), or a kernel abort (the `panic` arm). -/
inductive SyscallOutcome where
  | ret : Int → SyscallOutcome
  | diverge : SyscallOutcome
  | abort : SyscallOutcome
  deriving DecidableEq, Repr

/-- `syscall` from `syscall/mod.rs`: the dispatcher, with each non-exit
handler's result abstracted as a parameter (handlers are opaque to the
dispatch decision). -/
def syscall (writeRes yieldRes timeRes infoRes : Int) (syscall_id : Nat) :
    SyscallOutcome :=
  if syscall_id = SYSCALL_WRITE then SyscallOutcome.ret writeRes
  else if syscall_id = SYSCALL_EXIT then SyscallOutcome.diverge
  else if syscall_id = SYSCALL_YIELD then SyscallOutcome.ret yieldRes
  else if syscall_id = SYSCALL_GET_TIME then SyscallOutcome.ret timeRes
  else if syscall_id = SYSCALL_TASK_INFO then SyscallOutcome.ret infoRes
  else SyscallOutcome.abort

/-! ## Helper lemmas -/

theorem mem_pageRange {s e v : Nat} : v ∈ pageRange s e ↔ s ≤ v ∧ v < e := by
  unfold pageRange
  simp only [List.mem_map, List.mem_range]
  constructor
  · rintro ⟨i, hi, rfl⟩; omega
  · intro h; exact ⟨v - s, by omega, by omega⟩

/-! ## Claim theorems -/

/-- C5: the claim says `record_syscall` increments exactly the histogram
bucket that corresponds to `syscall_id` under the fixed bucket-id mapping
and is a no-op for untracked ids. The code instead increments the first
bucket whose CURRENT COUNT equals the syscall id: on a fresh all-zero
histogram, recording tracked syscall 64 (write) changes nothing; recording
124 (yield) when bucket 0 happens to hold the count 124 increments bucket 0
(the write bucket). This theorem evaluates the code at those inputs. -/
theorem C5_add_current_syscall_cnt_eval :
    add_current_syscall_cnt [0, 0, 0, 0, 0] 64 = [0, 0, 0, 0, 0] ∧
    add_current_syscall_cnt [64, 0, 0, 0, 0] 124 = [64, 0, 0, 0, 0] ∧
    add_current_syscall_cnt [124, 7, 0, 0, 0] 124 = [125, 7, 0, 0, 0] := by
  decide

/-- C4: the claim says `spawn(path)` is equivalent to fork-then-exec, in
particular that the new TCB is enqueued as Ready. Evaluating the code: from
a state with no children and an empty ready queue, `sys_spawn` of an
existing binary returns the new pid 7, creates the child and replaces its
image, but leaves the ready queue EMPTY (it never calls `add_task`, unlike
`sys_fork`, evaluated alongside), so the spawned task is never scheduled;
and on a missing binary it returns -1 but still leaves the forked child in
the children list. -/
theorem C4_sys_spawn_eval :
    (sys_spawn ⟨[], [], 7, ["hello"], []⟩ "hello").1 = 7 ∧
    (sys_spawn ⟨[], [], 7, ["hello"], []⟩ "hello").2.ready_queue = [] ∧
    (sys_spawn ⟨[], [], 7, ["hello"], []⟩ "hello").2.children = [7] ∧
    (sys_spawn ⟨[], [], 7, ["hello"], []⟩ "hello").2.image = [(7, "hello")] ∧
    (sys_fork ⟨[], [], 7, ["hello"], []⟩).2.ready_queue = [7] ∧
    (sys_spawn ⟨[], [], 7, ["hello"], []⟩ "missing").1 = -1 ∧
    (sys_spawn ⟨[], [], 7, ["hello"], []⟩ "missing").2.children = [7] := by
  refine ⟨rfl, ?_, ?_, ?_, rfl, ?_, ?_⟩ <;> decide

/-- C6: every dispatch-loop step on a fetched Ready task sets its status to
Running, increments its stride by `BIG_STRIDER / prio_level` (integer
division, `u8` arithmetic), and assigns `start_time` the current time
exactly when it still holds the -1 not-yet-scheduled sentinel (so it is
assigned only on the first schedule and never overwritten afterwards). -/
theorem C6_run_tasks_step (t : TaskInner) (now : Nat)
    (hp : t.prio_level ≠ 0)
    (hs : t.start_time = -1 ∨ 0 ≤ t.start_time) :
    (run_tasks_step t now).task_status = TaskStatus.Running ∧
    (run_tasks_step t now).stride =
      (t.stride + BIG_STRIDER / t.prio_level) % 256 ∧
    (t.start_time = -1 → (run_tasks_step t now).start_time = (now : Int)) ∧
    (0 ≤ t.start_time → (run_tasks_step t now).start_time = t.start_time) ∧
    ((run_tasks_step t now).start_time ≠ t.start_time → t.start_time = -1) := by
  refine ⟨rfl, rfl, ?_, ?_, ?_⟩
  · intro h
    simp only [run_tasks_step]
    rw [if_pos (by omega)]
  · intro h
    simp only [run_tasks_step]
    rw [if_neg (by omega)]
  · intro hne
    rcases hs with h | h
    · exact h
    · exfalso
      apply hne
      simp only [run_tasks_step]
      rw [if_neg (by omega)]

/-- C6 witness: a task scheduled for the first time (`start_time = -1`,
priority 2, stride 100) ends Running with stride 227. -/
theorem C6_run_tasks_step_witness :
    (run_tasks_step ⟨TaskStatus.Ready, 100, 2, -1⟩ 42).task_status =
      TaskStatus.Running ∧
    (run_tasks_step ⟨TaskStatus.Ready, 100, 2, -1⟩ 42).stride =
      (100 + BIG_STRIDER / 2) % 256 ∧
    (run_tasks_step ⟨TaskStatus.Ready, 100, 2, -1⟩ 42).start_time = 42 := by
  have h := C6_run_tasks_step ⟨TaskStatus.Ready, 100, 2, -1⟩ 42
    (by decide) (Or.inl rfl)
  exact ⟨h.1, h.2.1, h.2.2.1 rfl⟩

/-- C8: the dispatcher serves every id of its table by invoking the matching
handler and returning its signed result (diverging for exit), and aborts
the kernel on any id outside the table. -/
theorem C8_syscall_dispatch (w y g ti : Int) (id : Nat)
    (hid : id ∉ SYSCALL_MAP) :
    syscall w y g ti SYSCALL_WRITE = SyscallOutcome.ret w ∧
    syscall w y g ti SYSCALL_EXIT = SyscallOutcome.diverge ∧
    syscall w y g ti SYSCALL_YIELD = SyscallOutcome.ret y ∧
    syscall w y g ti SYSCALL_GET_TIME = SyscallOutcome.ret g ∧
    syscall w y g ti SYSCALL_TASK_INFO = SyscallOutcome.ret ti ∧
    syscall w y g ti id = SyscallOutcome.abort := by
  simp only [SYSCALL_MAP, List.mem_cons, List.not_mem_nil, or_false,
    not_or] at hid
  obtain ⟨h1, h2, h3, h4, h5⟩ := hid
  refine ⟨by rfl, by rfl, by rfl, by rfl, by rfl, ?_⟩
  simp only [syscall]
  rw [if_neg h1, if_neg h2, if_neg h3, if_neg h4, if_neg h5]

/-- C8 witness: id 1000 is not in the table and aborts; id 64 returns the
write handler's result. -/
theorem C8_syscall_dispatch_witness :
    syscall 5 0 0 0 1000 = SyscallOutcome.abort ∧
    syscall 5 0 0 0 SYSCALL_WRITE = SyscallOutcome.ret 5 := by
  have h := C8_syscall_dispatch 5 0 0 0 1000 (by decide)
  exact ⟨h.2.2.2.2.2, h.1⟩

/-- C9: `sys_set_priority` rejects levels outside `[2, 16]` returning -1
with the task unchanged; otherwise it stores the level, returns it,
leaves the accumulated stride (and everything else) unchanged, and only
subsequent scheduling steps use the new level for their stride increment. -/
theorem C9_sys_set_priority (t : TaskInner) (prio : Int) (now : Nat) :
    (prio < 2 ∨ 16 < prio → sys_set_priority t prio = (-1, t)) ∧
    (2 ≤ prio → prio ≤ 16 →
      (sys_set_priority t prio).1 = prio ∧
      (sys_set_priority t prio).2.prio_level = prio.toNat ∧
      (sys_set_priority t prio).2.stride = t.stride ∧
      (sys_set_priority t prio).2.task_status = t.task_status ∧
      (sys_set_priority t prio).2.start_time = t.start_time ∧
      (run_tasks_step (sys_set_priority t prio).2 now).stride =
        (t.stride + BIG_STRIDER / prio.toNat) % 256) := by
  constructor
  · intro h
    simp only [sys_set_priority]
    rw [if_pos h]
  · intro h2 h16
    have hcast : isizeToUsize prio % 256 = prio.toNat := by
      simp only [isizeToUsize]
      omega
    simp only [sys_set_priority]
    rw [if_neg (by omega)]
    exact ⟨rfl, hcast, rfl, rfl, rfl, by simp only [run_tasks_step, hcast]⟩

/-- C9 witness: level 17 is rejected leaving the task unchanged; level 16 is
accepted, returned, and leaves the stride untouched. -/
theorem C9_sys_set_priority_witness :
    sys_set_priority ⟨TaskStatus.Running, 30, 4, 5⟩ 17 =
      (-1, ⟨TaskStatus.Running, 30, 4, 5⟩) ∧
    (sys_set_priority ⟨TaskStatus.Running, 30, 4, 5⟩ 16).1 = 16 ∧
    (sys_set_priority ⟨TaskStatus.Running, 30, 4, 5⟩ 16).2.prio_level = 16 ∧
    (sys_set_priority ⟨TaskStatus.Running, 30, 4, 5⟩ 16).2.stride = 30 := by
  have ha := (C9_sys_set_priority ⟨TaskStatus.Running, 30, 4, 5⟩ 17 0).1
    (Or.inr (by decide))
  have hb := (C9_sys_set_priority ⟨TaskStatus.Running, 30, 4, 5⟩ 16 0).2
    (by decide) (by decide)
  exact ⟨ha, hb.1, hb.2.1, hb.2.2.1⟩

theorem findZombieChild_eq_none {pid : Int} {l : List Child}
    (h : ∀ p ∈ l, ¬(is_zombie p = true ∧ childMatches pid p = true)) :
    findZombieChild pid l = none := by
  induction l with
  | nil => rfl
  | cons p rest ih =>
    have hp := h p (by simp)
    have hcond : ¬(is_zombie p && childMatches pid p) = true := by
      simp only [Bool.and_eq_true]
      exact hp
    simp only [findZombieChild, if_neg hcond]
    rw [ih (fun q hq => h q (by simp [hq]))]
    rfl

theorem findZombieChild_first {pid : Int} {pre post : List Child} {c : Child}
    (hpre : ∀ p ∈ pre, ¬(is_zombie p = true ∧ childMatches pid p = true))
    (hc : is_zombie c = true) (hm : childMatches pid c = true) :
    findZombieChild pid (pre ++ c :: post) = some (pre.length, c) := by
  induction pre with
  | nil =>
    simp only [List.nil_append, findZombieChild, hc, hm, Bool.and_self,
      if_pos]
    rfl
  | cons p rest ih =>
    have hp := hpre p (by simp)
    have hcond : ¬(is_zombie p && childMatches pid p) = true := by
      simp only [Bool.and_eq_true]
      exact hp
    simp only [List.cons_append, findZombieChild, if_neg hcond,
      List.append_eq]
    rw [ih (fun q hq => hpre q (by simp [hq]))]
    rfl

theorem eraseIdx_middle (pre post : List Child) (c : Child) :
    (pre ++ c :: post).eraseIdx pre.length = pre ++ post := by
  induction pre with
  | nil => rfl
  | cons p rest ih =>
    simp only [List.cons_append, List.length_cons, List.eraseIdx_cons_succ,
      ih]

/-- C1: `sys_waitpid` returns -1 when no child matches `pid` (-1 matching
any child, a nonnegative `pid` matching a child whose pid equals it);
returns -2 when a child matches but no matching child is a Zombie; and
otherwise removes the FIRST matching Zombie child from the children list,
writes that child's exit code through the user pointer, and returns that
child's pid. -/
theorem C1_sys_waitpid (children : List Child) (pid : Int) :
    ((∀ p ∈ children, childMatches pid p = false) →
      sys_waitpid children pid = ⟨-1, children, none⟩) ∧
    ((∃ p ∈ children, childMatches pid p = true) →
      (∀ p ∈ children, ¬(is_zombie p = true ∧ childMatches pid p = true)) →
      sys_waitpid children pid = ⟨-2, children, none⟩) ∧
    (∀ pre c post, children = pre ++ c :: post →
      (∀ p ∈ pre, ¬(is_zombie p = true ∧ childMatches pid p = true)) →
      is_zombie c = true → childMatches pid c = true →
      sys_waitpid children pid =
        ⟨(c.pid : Int), pre ++ post, some c.exit_code⟩) ∧
    (∀ p : Child, childMatches (-1) p = true) ∧
    (0 ≤ pid → pid < 2 ^ 64 →
      ∀ p : Child, (childMatches pid p = true ↔ pid = (p.pid : Int))) := by
  refine ⟨?_, ?_, ?_, ?_, ?_⟩
  · intro h
    have hany : children.any (fun p => childMatches pid p) = false :=
      List.any_eq_false.mpr (fun p hp => by simp [h p hp])
    simp [sys_waitpid, hany]
  · intro hex hall
    obtain ⟨p, hp, hm⟩ := hex
    have hany : children.any (fun p => childMatches pid p) = true :=
      List.any_eq_true.mpr ⟨p, hp, hm⟩
    have hfind := @findZombieChild_eq_none pid children hall
    simp [sys_waitpid, hany, hfind]
  · intro pre c post hchildren hpre hc hm
    subst hchildren
    have hany : (pre ++ c :: post).any (fun p => childMatches pid p) = true :=
      List.any_eq_true.mpr ⟨c, by simp, hm⟩
    have hfind := @findZombieChild_first pid pre post c hpre hc hm
    simp only [sys_waitpid, hany, Bool.true_eq_false, not_true_eq_false,
      if_false, hfind]
    rw [eraseIdx_middle]
  · intro p
    simp [childMatches]
  · intro h0 hlt p
    have hmod : isizeToUsize pid = pid.toNat := by
      simp only [isizeToUsize]
      omega
    simp only [childMatches, Bool.or_eq_true, beq_iff_eq, hmod]
    omega

/-- C1 witness: with one Running child (pid 3) and one Zombie child (pid 5,
exit code 42), `waitpid(-1)` reaps the Zombie: returns 5, removes it from
the children list, and writes exit code 42. -/
theorem C1_sys_waitpid_witness :
    sys_waitpid
        [⟨3, TaskStatus.Running, 0⟩, ⟨5, TaskStatus.Zombie, 42⟩] (-1) =
      ⟨5, [⟨3, TaskStatus.Running, 0⟩], some 42⟩ :=
  (C1_sys_waitpid
      [⟨3, TaskStatus.Running, 0⟩, ⟨5, TaskStatus.Zombie, 42⟩] (-1)).2.2.1
    [⟨3, TaskStatus.Running, 0⟩] ⟨5, TaskStatus.Zombie, 42⟩ [] rfl
    (by decide) (by decide) (by decide)

theorem sys_mmap_success_unfold (ms : MemorySet) (start len port : Nat)
    (h1 : start % PAGE_SIZE = 0) (h2 : port >>> 3 = 0)
    (h3 : port &&& 7 ≠ 0)
    (hall : ∀ vpn ∈ pageRange (vaFloor start) (vaCeil (start + len)),
      is_map_vpn ms vpn = false) :
    sys_mmap ms start len port =
      (0, add_maparea ms start (start + len) port) := by
  have hany : (pageRange (vaFloor start) (vaCeil (start + len))).any
      (fun vpn => is_map_vpn ms vpn) = false :=
    List.any_eq_false.mpr (fun v hv => by simp [hall v hv])
  simp only [sys_mmap]
  rw [if_neg (by push_neg; exact ⟨h1, h2, h3⟩), if_neg (by simp [hany])]

theorem sys_mmap_overlap_fail (ms : MemorySet) (start len port : Nat)
    (hex : ∃ vpn ∈ pageRange (vaFloor start) (vaCeil (start + len)),
      is_map_vpn ms vpn = true) :
    sys_mmap ms start len port = (-1, ms) := by
  simp only [sys_mmap]
  by_cases hargs : start % PAGE_SIZE ≠ 0 ∨ port >>> 3 ≠ 0 ∨
      port &&& 7 = 0
  · rw [if_pos hargs]
  · obtain ⟨v, hv, hm⟩ := hex
    have hany : (pageRange (vaFloor start) (vaCeil (start + len))).any
        (fun vpn => is_map_vpn ms vpn) = true :=
      List.any_eq_true.mpr ⟨v, hv, hm⟩
    rw [if_neg hargs, if_pos (by simp [hany])]

theorem sys_munmap_checked_unfold (ms : MemorySet) (start len : Nat)
    (h1 : start % PAGE_SIZE = 0)
    (hall : ∀ vpn ∈ pageRange (vaFloor start) (vaCeil (start + len)),
      is_map_vpn ms vpn = true) :
    sys_munmap ms start len = remove_area ms start (start + len) := by
  have hany : (pageRange (vaFloor start) (vaCeil (start + len))).any
      (fun vpn => ¬is_map_vpn ms vpn) = false :=
    List.any_eq_false.mpr (fun v hv => by simp [hall v hv])
  simp only [sys_munmap, remove_mem]
  rw [if_neg (fun hc => hc h1), if_neg (by simp [hany]; exact hall)]

theorem sys_munmap_unmapped_fail (ms : MemorySet) (start len : Nat)
    (hex : ∃ vpn ∈ pageRange (vaFloor start) (vaCeil (start + len)),
      is_map_vpn ms vpn = false) :
    sys_munmap ms start len = (-1, ms) := by
  simp only [sys_munmap]
  by_cases h1 : start % PAGE_SIZE ≠ 0
  · rw [if_pos h1]
  · obtain ⟨v, hv, hm⟩ := hex
    have hany : (pageRange (vaFloor start) (vaCeil (start + len))).any
        (fun vpn => ¬is_map_vpn ms vpn) = true :=
      List.any_eq_true.mpr ⟨v, hv, by simp [hm]⟩
    rw [if_neg h1, if_pos (by simp [hany]; exact ⟨v, hv, hm⟩)]

theorem remove_area_exact_match (ms : MemorySet) (startVa endVa : Nat) :
    ((remove_area ms startVa endVa).1 = 0 ↔
      ∃ a ∈ ms.areas,
        a.startVpn = vaFloor startVa ∧ a.endVpn = vaCeil endVa) ∧
    ((¬∃ a ∈ ms.areas,
        a.startVpn = vaFloor startVa ∧ a.endVpn = vaCeil endVa) →
      remove_area ms startVa endVa = (-1, ms)) := by
  rcases hidx : ms.areas.findIdx?
      (fun a => a.startVpn == vaFloor startVa && a.endVpn == vaCeil endVa)
    with _ | i
  · have hnone := List.findIdx?_eq_none_iff.mp hidx
    constructor
    · simp only [remove_area, hidx]
      constructor
      · intro h
        exact absurd h (by decide)
      · rintro ⟨a, ha, hs, he⟩
        have := hnone a ha
        simp [hs, he] at this
    · intro _
      simp only [remove_area, hidx]
  · have hsome : (ms.areas.findIdx?
        (fun a => a.startVpn == vaFloor startVa &&
          a.endVpn == vaCeil endVa)).isSome = true := by
      rw [hidx]; rfl
    rw [List.findIdx?_isSome] at hsome
    obtain ⟨a, ha, hpa⟩ := List.any_eq_true.mp hsome
    simp only [Bool.and_eq_true, beq_iff_eq] at hpa
    constructor
    · simp only [remove_area, hidx]
      exact ⟨fun _ => ⟨a, ha, hpa.1, hpa.2⟩, fun _ => by simp⟩
    · intro hno
      exact absurd ⟨a, ha, hpa.1, hpa.2⟩ hno

/-- C2: `sys_mmap` returns -1 leaving the address space unchanged when
`start` is not page-aligned, when `port` has bits above the low three, when
the low three `port` bits are all zero, or when any page of the
page-rounded range is already mapped; otherwise it appends one framed area
covering the whole range with permissions bit0→R, bit1→W, bit2→X plus U,
and returns 0. -/
theorem C2_sys_mmap (ms : MemorySet) (start len port : Nat) :
    (start % PAGE_SIZE ≠ 0 → sys_mmap ms start len port = (-1, ms)) ∧
    (port >>> 3 ≠ 0 → sys_mmap ms start len port = (-1, ms)) ∧
    (port &&& 7 = 0 → sys_mmap ms start len port = (-1, ms)) ∧
    ((∃ vpn ∈ pageRange (vaFloor start) (vaCeil (start + len)),
        is_map_vpn ms vpn = true) →
      sys_mmap ms start len port = (-1, ms)) ∧
    (start % PAGE_SIZE = 0 → port >>> 3 = 0 → port &&& 7 ≠ 0 →
      (∀ vpn ∈ pageRange (vaFloor start) (vaCeil (start + len)),
        is_map_vpn ms vpn = false) →
      sys_mmap ms start len port =
        (0, ⟨ms.areas ++ [⟨vaFloor start, vaCeil (start + len),
          ⟨decide (port &&& 1 ≠ 0), decide (port &&& 2 ≠ 0),
            decide (port &&& 4 ≠ 0), true⟩⟩]⟩)) := by
  refine ⟨?_, ?_, ?_, ?_, ?_⟩
  · intro h
    simp only [sys_mmap]
    rw [if_pos (Or.inl h)]
  · intro h
    simp only [sys_mmap]
    rw [if_pos (Or.inr (Or.inl h))]
  · intro h
    simp only [sys_mmap]
    rw [if_pos (Or.inr (Or.inr h))]
  · exact sys_mmap_overlap_fail ms start len port
  · intro h1 h2 h3 hall
    rw [sys_mmap_success_unfold ms start len port h1 h2 h3 hall]
    rfl

/-- C2 witness: in an empty address space, `mmap(4096, 10, 0b011)` succeeds
and installs one area over page 1 with R, W and U permissions. -/
theorem C2_sys_mmap_witness :
    sys_mmap ⟨[]⟩ 4096 10 3 =
      (0, ⟨[⟨1, 2, ⟨true, true, false, true⟩⟩]⟩) := by
  have h := (C2_sys_mmap ⟨[]⟩ 4096 10 3).2.2.2.2
    (by decide) (by decide) (by decide) (by decide)
  exact h

/-- C3: `sys_munmap` returns -1 when `start` is not page-aligned; returns
-1 leaving the address space unchanged when some page of the page-rounded
range is unmapped; and when every page of the range is mapped it succeeds
(returns 0) exactly when the range coincides with a previously inserted
area's boundaries — in particular a strict sub-range of a larger area is
rejected, leaving the address space unchanged. -/
theorem C3_sys_munmap (ms : MemorySet) (start len : Nat) :
    (start % PAGE_SIZE ≠ 0 → sys_munmap ms start len = (-1, ms)) ∧
    ((∃ vpn ∈ pageRange (vaFloor start) (vaCeil (start + len)),
        is_map_vpn ms vpn = false) →
      sys_munmap ms start len = (-1, ms)) ∧
    (start % PAGE_SIZE = 0 →
      (∀ vpn ∈ pageRange (vaFloor start) (vaCeil (start + len)),
        is_map_vpn ms vpn = true) →
      (((sys_munmap ms start len).1 = 0 ↔
        ∃ a ∈ ms.areas,
          a.startVpn = vaFloor start ∧ a.endVpn = vaCeil (start + len)) ∧
      ((¬∃ a ∈ ms.areas,
          a.startVpn = vaFloor start ∧ a.endVpn = vaCeil (start + len)) →
        sys_munmap ms start len = (-1, ms)))) := by
  refine ⟨?_, ?_, ?_⟩
  · intro h
    simp only [sys_munmap]
    rw [if_pos h]
  · exact sys_munmap_unmapped_fail ms start len
  · intro h1 hall
    rw [sys_munmap_checked_unfold ms start len h1 hall]
    exact remove_area_exact_match ms start (start + len)

/-- C3 witness: with a single area covering pages [1, 5), unmapping the
sub-range of pages [1, 3) (every page of which is mapped) is rejected with
-1 and the address space is unchanged. -/
theorem C3_sys_munmap_witness :
    sys_munmap ⟨[⟨1, 5, ⟨true, true, false, true⟩⟩]⟩ 4096 8192 =
      (-1, ⟨[⟨1, 5, ⟨true, true, false, true⟩⟩]⟩) :=
  ((C3_sys_munmap ⟨[⟨1, 5, ⟨true, true, false, true⟩⟩]⟩ 4096 8192).2.2
    (by decide) (by decide)).2 (by decide)

/-- C10: for both `sys_mmap` and `sys_munmap` the pages checked and
affected are exactly the page numbers from `start / PAGE_SIZE` up to
`ceil((start + len) / PAGE_SIZE)`: that interval holds precisely the pages
whose frame intersects `[start, start + len)` (so `len` need not be
page-aligned and a final partial page counts whole); `mmap` succeeds
exactly when no page of the interval is mapped and then the newly mapped
pages are exactly the interval; `munmap` fails on any unmapped page of the
interval and otherwise reaches area removal; and `mmap` with `len = 0`,
aligned `start` and valid `port` returns 0 mapping no page at all. -/
theorem C10_page_rounding (ms : MemorySet) (start len port : Nat) :
    (start % PAGE_SIZE = 0 →
      ∀ v, v ∈ pageRange (vaFloor start) (vaCeil (start + len)) ↔
        (start ≤ PAGE_SIZE * v ∧ PAGE_SIZE * v < start + len)) ∧
    (start % PAGE_SIZE = 0 → port >>> 3 = 0 → port &&& 7 ≠ 0 →
      ((sys_mmap ms start len port).1 = 0 ↔
        ∀ v ∈ pageRange (vaFloor start) (vaCeil (start + len)),
          is_map_vpn ms v = false)) ∧
    (start % PAGE_SIZE = 0 → port >>> 3 = 0 → port &&& 7 ≠ 0 →
      (sys_mmap ms start len port).1 = 0 →
      ∀ v, (is_map_vpn (sys_mmap ms start len port).2 v = true ↔
        (is_map_vpn ms v = true ∨
          v ∈ pageRange (vaFloor start) (vaCeil (start + len))))) ∧
    ((∃ vpn ∈ pageRange (vaFloor start) (vaCeil (start + len)),
        is_map_vpn ms vpn = false) →
      sys_munmap ms start len = (-1, ms)) ∧
    (start % PAGE_SIZE = 0 →
      (∀ vpn ∈ pageRange (vaFloor start) (vaCeil (start + len)),
        is_map_vpn ms vpn = true) →
      sys_munmap ms start len = remove_area ms start (start + len)) ∧
    (start % PAGE_SIZE = 0 → port >>> 3 = 0 → port &&& 7 ≠ 0 →
      ((sys_mmap ms start 0 port).1 = 0 ∧
        ∀ v, is_map_vpn (sys_mmap ms start 0 port).2 v =
          is_map_vpn ms v)) := by
  have hiff : start % PAGE_SIZE = 0 → port >>> 3 = 0 → port &&& 7 ≠ 0 →
      ((sys_mmap ms start len port).1 = 0 ↔
        ∀ v ∈ pageRange (vaFloor start) (vaCeil (start + len)),
          is_map_vpn ms v = false) := by
    intro h1 h2 h3
    constructor
    · intro h0
      by_contra hnot
      push_neg at hnot
      obtain ⟨v, hv, hm⟩ := hnot
      have hm' : is_map_vpn ms v = true := by
        revert hm
        cases is_map_vpn ms v <;> simp
      rw [sys_mmap_overlap_fail ms start len port ⟨v, hv, hm'⟩] at h0
      simp at h0
    · intro hall
      rw [sys_mmap_success_unfold ms start len port h1 h2 h3 hall]
  refine ⟨?_, hiff, ?_, sys_munmap_unmapped_fail ms start len, ?_, ?_⟩
  · intro h1 v
    rw [mem_pageRange]
    simp only [PAGE_SIZE] at h1
    simp only [vaFloor, vaCeil, PAGE_SIZE]
    omega
  · intro h1 h2 h3 h0 v
    have hall := (hiff h1 h2 h3).mp h0
    rw [sys_mmap_success_unfold ms start len port h1 h2 h3 hall]
    simp only [add_maparea, insert_framed_area, is_map_vpn,
      List.any_append, List.any_cons, List.any_nil, Bool.or_false,
      Bool.or_eq_true, Bool.and_eq_true, decide_eq_true_eq, mem_pageRange]
  · intro h1 hall
    exact sys_munmap_checked_unfold ms start len h1 hall
  · intro h1 h2 h3
    have hceil : vaCeil (start + 0) = vaFloor start := by
      simp only [PAGE_SIZE] at h1
      simp only [vaCeil, vaFloor, PAGE_SIZE]
      omega
    have hall : ∀ v ∈ pageRange (vaFloor start) (vaCeil (start + 0)),
        is_map_vpn ms v = false := by
      intro v hv
      rw [hceil] at hv
      simp [pageRange] at hv
    rw [sys_mmap_success_unfold ms start 0 port h1 h2 h3 hall]
    refine ⟨rfl, fun v => ?_⟩
    have hfalse : (decide (vaFloor start ≤ v) &&
        decide (v < vaCeil (start + 0))) = false := by
      rw [hceil]
      simp only [Bool.and_eq_false_iff, decide_eq_false_iff_not]
      omega
    simp only [add_maparea, insert_framed_area, is_map_vpn,
      List.any_append, List.any_cons, List.any_nil, Bool.or_false, hfalse]

/-- C10 witness: with page 1 mapped, `mmap(12288, 0, port=1)` (len 0,
aligned start, valid port) returns 0 and leaves page 1's mapping exactly as
it was — no page is added. -/
theorem C10_page_rounding_witness :
    (sys_mmap ⟨[⟨1, 2, ⟨true, true, false, true⟩⟩]⟩ 12288 0 1).1 = 0 ∧
    is_map_vpn (sys_mmap ⟨[⟨1, 2, ⟨true, true, false, true⟩⟩]⟩
      12288 0 1).2 1 =
      is_map_vpn ⟨[⟨1, 2, ⟨true, true, false, true⟩⟩]⟩ 1 := by
  have h := (C10_page_rounding ⟨[⟨1, 2, ⟨true, true, false, true⟩⟩]⟩
      12288 0 1).2.2.2.2.2 (by decide) (by decide) (by decide)
  exact ⟨h.1, h.2 1⟩

theorem writeBuckets_length (ps : List (Nat × Nat)) (times : List Nat) :
    (writeBuckets ps times).length = times.length := by
  induction ps generalizing times with
  | nil => rfl
  | cons pr rest ih =>
    obtain ⟨a, c⟩ := pr
    rw [show writeBuckets ((a, c) :: rest) times =
      writeBuckets rest (times.set a c) from rfl]
    rw [ih (times.set a c), List.length_set]

theorem writeBuckets_getElem_not_mem {ps : List (Nat × Nat)}
    {times : List Nat} {s : Nat} (h : ∀ pr ∈ ps, pr.1 ≠ s) :
    (writeBuckets ps times)[s]? = times[s]? := by
  induction ps generalizing times with
  | nil => rfl
  | cons pr rest ih =>
    obtain ⟨a, c⟩ := pr
    have ha : a ≠ s := h (a, c) (by simp)
    rw [show writeBuckets ((a, c) :: rest) times =
      writeBuckets rest (times.set a c) from rfl]
    rw [ih (fun q hq => h q (by simp [hq]))]
    exact List.getElem?_set_ne ha

theorem writeBuckets_getElem_idx {ps : List (Nat × Nat)}
    {times : List Nat} {i s c : Nat} (hi : ps[i]? = some (s, c))
    (hnd : (ps.map Prod.fst).Nodup) (hs : s < times.length) :
    (writeBuckets ps times)[s]? = some c := by
  induction ps generalizing times i with
  | nil => simp at hi
  | cons pr rest ih =>
    obtain ⟨a, c'⟩ := pr
    simp only [List.map_cons, List.nodup_cons] at hnd
    obtain ⟨hna, hnd'⟩ := hnd
    cases i with
    | zero =>
      simp only [List.getElem?_cons_zero, Option.some.injEq,
        Prod.mk.injEq] at hi
      obtain ⟨rfl, rfl⟩ := hi
      rw [show writeBuckets ((a, c') :: rest) times =
        writeBuckets rest (times.set a c') from rfl]
      rw [writeBuckets_getElem_not_mem (fun q hq hqa =>
        hna (by rw [← hqa]; exact List.mem_map_of_mem Prod.fst hq))]
      exact List.getElem?_set_self hs
    | succ j =>
      simp only [List.getElem?_cons_succ] at hi
      rw [show writeBuckets ((a, c') :: rest) times =
        writeBuckets rest (times.set a c') from rfl]
      exact ih hi hnd' (by rw [List.length_set]; exact hs)

/-- C7: for a running task with `start_time >= 0`, `sys_task_info` writes
status Running, a time equal to `ceil((now - start_time) / 1000)`
(microseconds to milliseconds), and a `syscall_times` array that is the
internal bucket histogram remapped so that bucket `i`'s count lands at the
slot indexed by the `i`-th tracked syscall's number, all other slots left
as they were. -/
theorem C7_sys_task_info (tongMap cnt prev : List Nat) (startTime : Int)
    (now : Nat) (h0 : 0 ≤ startTime) (hle : startTime.toNat ≤ now)
    (hfit : now + 1000 < 2 ^ 64) (hlen : tongMap.length = cnt.length)
    (hnd : tongMap.Nodup) (hbound : ∀ s ∈ tongMap, s < prev.length) :
    (sys_task_info tongMap cnt prev startTime now).status =
      TaskStatus.Running ∧
    (now - startTime.toNat ≤
        1000 * (sys_task_info tongMap cnt prev startTime now).time ∧
      1000 * (sys_task_info tongMap cnt prev startTime now).time <
        now - startTime.toNat + 1000) ∧
    (∀ (i slot c : Nat), tongMap[i]? = some slot → cnt[i]? = some c →
      (sys_task_info tongMap cnt prev startTime now).syscall_times[slot]? =
        some (c % 2 ^ 32)) ∧
    (∀ s, s ∉ tongMap →
      (sys_task_info tongMap cnt prev startTime now).syscall_times[s]? =
        prev[s]?) ∧
    (sys_task_info tongMap cnt prev startTime now).syscall_times.length =
      prev.length := by
  have h64 : (2 : Nat) ^ 64 = 18446744073709551616 := by norm_num
  have h64i : (2 : Int) ^ 64 = 18446744073709551616 := by norm_num
  refine ⟨rfl, ?_, ?_, ?_, ?_⟩
  · simp only [sys_task_info, get_current_running_time, isizeToUsize,
      h64, h64i]
    omega
  · intro i slot c hi hc
    have hzip : (tongMap.zip (cnt.map (· % 2 ^ 32)))[i]? =
        some (slot, c % 2 ^ 32) := by
      rw [List.getElem?_zip_eq_some]
      exact ⟨hi, by rw [List.getElem?_map, hc]; rfl⟩
    have hmapfst : (tongMap.zip (cnt.map (· % 2 ^ 32))).map Prod.fst =
        tongMap :=
      List.map_fst_zip _ _ (by rw [List.length_map]; omega)
    have hnd' :
        ((tongMap.zip (cnt.map (· % 2 ^ 32))).map Prod.fst).Nodup := by
      rw [hmapfst]; exact hnd
    have hs : slot < prev.length := hbound slot (List.getElem?_mem hi)
    simp only [sys_task_info]
    exact writeBuckets_getElem_idx hzip hnd' hs
  · intro s hs
    simp only [sys_task_info]
    apply writeBuckets_getElem_not_mem
    rintro ⟨a, b⟩ hpr rfl
    exact hs (List.of_mem_zip hpr).1
  · simp only [sys_task_info]
    exact writeBuckets_length _ _

/-- C7 witness: with buckets `[3, 1, 4, 1, 5]` for tracked syscalls
`[64, 93, 124, 169, 410]`, `start_time = 0` and `now = 2500` µs, the
reported info is Running, 3 ms (the ceiling of 2.5 ms), and slot 64 of the
user array holds count 3. -/
theorem C7_sys_task_info_witness :
    (sys_task_info [64, 93, 124, 169, 410] [3, 1, 4, 1, 5]
      (List.replicate 500 0) 0 2500).status = TaskStatus.Running ∧
    (sys_task_info [64, 93, 124, 169, 410] [3, 1, 4, 1, 5]
      (List.replicate 500 0) 0 2500).time = 3 ∧
    (sys_task_info [64, 93, 124, 169, 410] [3, 1, 4, 1, 5]
      (List.replicate 500 0) 0 2500).syscall_times[64]? = some 3 := by
  have h := C7_sys_task_info [64, 93, 124, 169, 410] [3, 1, 4, 1, 5]
    (List.replicate 500 0) 0 2500 (by decide) (by decide) (by norm_num)
    (by decide) (by decide)
    (by intro s hs; rw [List.length_replicate]; fin_cases hs <;> norm_num)
  refine ⟨h.1, ?_, ?_⟩
  · have ht := h.2.1
    omega
  · have hr := h.2.2.1 0 64 3 rfl rfl
    exact hr

end RCore
